import Mathlib

/-
Verification of the transfer-adapter registry (tq/manifest.go) and the
attribute installer (Attribute.set / shouldReset) of the git-lfs sources,
as a shallow embedding in Lean 4.

Modelling conventions:
- Go maps `map[string]T` are association lists `List (String × T)`; map
  assignment is `mapInsert` (replace the first binding of the key, or
  append), and map lookup is `List.lookup`.
- A Go interface value that may be nil is an `Option`; `none` is the nil
  sentinel.
- Go `int` fields are `Int`.
- The mutex of the Manifest is irrelevant to the sequential semantics of
  each operation; for the one claim about lock discipline, the sequence of
  lock, lookup, factory-call and unlock events performed by `NewAdapter`
  is transcribed into an explicit event list (`Manifest.newAdapterEvents`),
  honouring the Go rule that a deferred `Unlock` runs only after the
  return expression of the function has been evaluated.
-/

namespace GitLfs

/-- Go map assignment `tbl[k] = v` on an association-list model: replace
the first binding of `k`, or append a new binding. -/
def mapInsert {β : Type} : List (String × β) → String → β → List (String × β)
  | [], k, v => [(k, v)]
  | (k2, v2) :: rest, k, v =>
      if k2 == k then (k, v) :: rest else (k2, v2) :: mapInsert rest k v

/-- The transfer direction. The Go type is an integer-backed enumeration
whose recognised values in manifest.go are `Upload` and `Download`; the
constructor `other` stands for every remaining integer value of the Go
type (the switch statements in manifest.go send all of them to their
default branch). -/
inductive Direction where
  | Upload
  | Download
  | other (code : Nat)
deriving DecidableEq

/-- An adapter instance, the uninterpreted result of a factory call. The
registry never inspects it; the constructors merely make distinct
factories distinguishable by their results. -/
inductive Adapter where
  | basic (name : String) (dir : Direction)
  | tus (name : String) (dir : Direction)
  | custom (tag : Nat) (name : String) (dir : Direction)
deriving DecidableEq

/-- Go `type NewAdapterFunc func(name string, dir Direction) Adapter`;
the returned interface value may be nil, hence `Option`. -/
abbrev NewAdapterFunc := String → Direction → Option Adapter

def defaultMaxRetries : Int := 1
def defaultConcurrentTransfers : Int := 3

/-- Modelled from the spec: the well-known name of the basic adapter
(`BasicAdapterName`, declared outside the given sources); the spec calls
it the well-known name "basic". -/
def BasicAdapterName : String := "basic"

/-- Modelled from the spec: the name under which the resumable (tus)
adapter is registered; declared outside the given sources. -/
def TusAdapterName : String := "tus"

/-- The Manifest of tq/manifest.go. The mutex field carries no sequential
state and is omitted; the lock discipline is modelled separately by
`Manifest.newAdapterEvents`. -/
structure Manifest where
  MaxRetries : Int
  ConcurrentTransfers : Int
  BasicTransfersOnly : Bool
  TusTransfersAllowed : Bool
  downloadAdapterFuncs : List (String × NewAdapterFunc)
  uploadAdapterFuncs : List (String × NewAdapterFunc)

/-- `NewManifest` of manifest.go: defaults for the two numeric fields,
empty factory tables, and Go zero values (false) for the two flags. -/
def NewManifest : Manifest :=
  { MaxRetries := defaultMaxRetries
    ConcurrentTransfers := defaultConcurrentTransfers
    BasicTransfersOnly := false
    TusTransfersAllowed := false
    downloadAdapterFuncs := []
    uploadAdapterFuncs := [] }

/-- `Manifest.RegisterNewAdapterFunc` of manifest.go: write the factory
into the table selected by the direction; unrecognised directions fall
through the switch and change nothing. -/
def Manifest.RegisterNewAdapterFunc (m : Manifest) (name : String) (dir : Direction)
    (f : NewAdapterFunc) : Manifest :=
  match dir with
  | Direction.Upload => { m with uploadAdapterFuncs := mapInsert m.uploadAdapterFuncs name f }
  | Direction.Download =>
      { m with downloadAdapterFuncs := mapInsert m.downloadAdapterFuncs name f }
  | Direction.other _ => m

/-- `Manifest.getAdapterNames` of manifest.go: the basic-only policy
override, else the keys of the given table. -/
def Manifest.getAdapterNames (m : Manifest) (adapters : List (String × NewAdapterFunc)) :
    List String :=
  if m.BasicTransfersOnly then [BasicAdapterName]
  else adapters.map Prod.fst

/-- `Manifest.GetDownloadAdapterNames` of manifest.go. -/
def Manifest.GetDownloadAdapterNames (m : Manifest) : List String :=
  m.getAdapterNames m.downloadAdapterFuncs

/-- `Manifest.GetUploadAdapterNames` of manifest.go. -/
def Manifest.GetUploadAdapterNames (m : Manifest) : List String :=
  m.getAdapterNames m.uploadAdapterFuncs

/-- `Manifest.GetAdapterNames` of manifest.go: dispatch on the direction;
the switch returns nil (the empty list) for unrecognised directions. -/
def Manifest.GetAdapterNames (m : Manifest) (dir : Direction) : List String :=
  match dir with
  | Direction.Upload => m.GetUploadAdapterNames
  | Direction.Download => m.GetDownloadAdapterNames
  | Direction.other _ => []

/-- `Manifest.NewAdapter` of manifest.go: look the name up in the table
of the direction and invoke the factory, or return the nil sentinel. -/
def Manifest.NewAdapter (m : Manifest) (name : String) (dir : Direction) : Option Adapter :=
  match dir with
  | Direction.Upload =>
      match m.uploadAdapterFuncs.lookup name with
      | some u => u name dir
      | none => none
  | Direction.Download =>
      match m.downloadAdapterFuncs.lookup name with
      | some d => d name dir
      | none => none
  | Direction.other _ => none

/-- `Manifest.NewAdapterOrDefault` of manifest.go: substitute the basic
name for an empty request name, then fall back to the basic name if the
first attempt yields the nil sentinel. -/
def Manifest.NewAdapterOrDefault (m : Manifest) (name : String) (dir : Direction) :
    Option Adapter :=
  let name2 := if name.length == 0 then BasicAdapterName else name
  match m.NewAdapter name2 dir with
  | some a => some a
  | none => m.NewAdapter BasicAdapterName dir

/-- `Manifest.NewDownloadAdapter` of manifest.go. -/
def Manifest.NewDownloadAdapter (m : Manifest) (name : String) : Option Adapter :=
  m.NewAdapterOrDefault name Direction.Download

/-- `Manifest.NewUploadAdapter` of manifest.go. -/
def Manifest.NewUploadAdapter (m : Manifest) (name : String) : Option Adapter :=
  m.NewAdapterOrDefault name Direction.Upload

/-- Modelled from the spec: the factory of the basic adapter (registered
by the bootstrap routines declared outside the given sources); the spec
guarantees it yields a usable, non-nil adapter. -/
def basicFactory : NewAdapterFunc := fun name dir => some (Adapter.basic name dir)

/-- Modelled from the spec: the factory of the resumable (tus) adapter,
declared outside the given sources. -/
def tusFactory : NewAdapterFunc := fun name dir => some (Adapter.tus name dir)

/-- Modelled from the spec: `configureBasicDownloadAdapter`, declared
outside the given sources, registers the basic factory under the
well-known basic name for the Download direction. -/
def configureBasicDownloadAdapter (m : Manifest) : Manifest :=
  m.RegisterNewAdapterFunc BasicAdapterName Direction.Download basicFactory

/-- Modelled from the spec: `configureBasicUploadAdapter`, declared
outside the given sources, registers the basic factory under the
well-known basic name for the Upload direction. -/
def configureBasicUploadAdapter (m : Manifest) : Manifest :=
  m.RegisterNewAdapterFunc BasicAdapterName Direction.Upload basicFactory

/-- Modelled from the spec: `configureTusAdapter`, declared outside the
given sources, registers the resumable adapter (for the Upload
direction, as the resumable protocol is upload-side). -/
def configureTusAdapter (m : Manifest) : Manifest :=
  m.RegisterNewAdapterFunc TusAdapterName Direction.Upload tusFactory

/-- `Manifest.InitAdapters` of manifest.go: clamp the two numeric fields
to their defaults when below 1, register the basic adapters for both
directions, and the tus adapter when allowed. -/
def Manifest.InitAdapters (m : Manifest) : Manifest :=
  let m1 := if m.MaxRetries < 1 then { m with MaxRetries := defaultMaxRetries } else m
  let m2 :=
    if m1.ConcurrentTransfers < 1 then
      { m1 with ConcurrentTransfers := defaultConcurrentTransfers }
    else m1
  let m3 := configureBasicDownloadAdapter m2
  let m4 := configureBasicUploadAdapter m3
  if m4.TusTransfersAllowed then configureTusAdapter m4 else m4

/-- Statement helper: the factory table addressed by a direction (empty
for unrecognised directions, which have no table). -/
def Manifest.funcsFor (m : Manifest) : Direction → List (String × NewAdapterFunc)
  | Direction.Upload => m.uploadAdapterFuncs
  | Direction.Download => m.downloadAdapterFuncs
  | Direction.other _ => []

/-- Events performed by `Manifest.NewAdapter`, in execution order: the
mutex is acquired by `m.mu.Lock()`, the deferred `m.mu.Unlock()` runs
only after the return expression has been evaluated, so when the lookup
succeeds the factory call happens before the release. -/
inductive LockEvent where
  | acquire
  | release
  | invokeFactory (name : String) (dir : Direction)
deriving DecidableEq

/-- The event trace of `Manifest.NewAdapter` of manifest.go: acquire;
look the name up; on a hit, invoke the factory (this is the evaluation
of the return expression, which in Go precedes the deferred unlock);
finally release. -/
def Manifest.newAdapterEvents (m : Manifest) (name : String) (dir : Direction) :
    List LockEvent :=
  LockEvent.acquire ::
    (match dir with
     | Direction.Upload =>
         match m.uploadAdapterFuncs.lookup name with
         | some _ => [LockEvent.invokeFactory name dir, LockEvent.release]
         | none => [LockEvent.release]
     | Direction.Download =>
         match m.downloadAdapterFuncs.lookup name with
         | some _ => [LockEvent.invokeFactory name dir, LockEvent.release]
         | none => [LockEvent.release]
     | Direction.other _ => [LockEvent.release])

/-- True when some factory invocation in the trace happens while the
guard is held (the running acquire count, started at the accumulator, is
positive). -/
def invokeWhileHeld : Nat → List LockEvent → Bool
  | _, [] => false
  | held, LockEvent.acquire :: rest => invokeWhileHeld (held + 1) rest
  | held, LockEvent.release :: rest => invokeWhileHeld (held - 1) rest
  | held, LockEvent.invokeFactory _ _ :: rest => (held != 0) || invokeWhileHeld held rest

/-- True when some factory invocation in the trace happens while the
guard is free (the running acquire count is zero). -/
def invokeWhileFree : Nat → List LockEvent → Bool
  | _, [] => false
  | held, LockEvent.acquire :: rest => invokeWhileFree (held + 1) rest
  | held, LockEvent.release :: rest => invokeWhileFree (held - 1) rest
  | held, LockEvent.invokeFactory _ _ :: rest => (held == 0) || invokeWhileFree held rest

/-
Attribute installer (Attribute.set and shouldReset of the lfs package).
-/

/-- Modelled from the spec: the external `git.Configuration` collaborator
(declared outside the given sources) reads and writes named key-value
properties in one of four configuration scopes; a missing key reads as
the empty string. -/
structure GitConfiguration where
  localConfig : List (String × String)
  worktreeConfig : List (String × String)
  systemConfig : List (String × String)
  globalConfig : List (String × String)
deriving DecidableEq

/-- Modelled from the spec: reading a key from one scope of the external
configuration store; absent keys read as the empty string. -/
def configFind (entries : List (String × String)) (key : String) : String :=
  (entries.lookup key).getD ""

def GitConfiguration.FindLocal (c : GitConfiguration) (key : String) : String :=
  configFind c.localConfig key

def GitConfiguration.FindWorktree (c : GitConfiguration) (key : String) : String :=
  configFind c.worktreeConfig key

def GitConfiguration.FindSystem (c : GitConfiguration) (key : String) : String :=
  configFind c.systemConfig key

def GitConfiguration.FindGlobal (c : GitConfiguration) (key : String) : String :=
  configFind c.globalConfig key

def GitConfiguration.SetLocal (c : GitConfiguration) (key value : String) : GitConfiguration :=
  { c with localConfig := mapInsert c.localConfig key value }

def GitConfiguration.SetWorktree (c : GitConfiguration) (key value : String) :
    GitConfiguration :=
  { c with worktreeConfig := mapInsert c.worktreeConfig key value }

def GitConfiguration.SetSystem (c : GitConfiguration) (key value : String) : GitConfiguration :=
  { c with systemConfig := mapInsert c.systemConfig key value }

def GitConfiguration.SetGlobal (c : GitConfiguration) (key value : String) : GitConfiguration :=
  { c with globalConfig := mapInsert c.globalConfig key value }

/-- `FilterOptions` of the lfs package; the GitConfig field is passed to
`Attribute.set` as an explicit state argument instead. -/
structure FilterOptions where
  Force : Bool
  Local : Bool
  Worktree : Bool
  System : Bool
  SkipSmudge : Bool
deriving DecidableEq

/-- The conflict error raised by `Attribute.set`, carrying the key, the
desired value and the current value it reports. -/
structure ConflictError where
  key : String
  expected : String
  actual : String
deriving DecidableEq

/-- `shouldReset` of the lfs package: an empty current value, or one that
matches an upgradeable legacy value, may be overwritten. -/
def shouldReset (value : String) (upgradeables : List String) : Bool :=
  if value.length == 0 then true
  else upgradeables.contains value

/-- The scope-selection chain of `Attribute.set` for reads: Local, then
Worktree, then System, else Global. -/
def selectedFind (gitConfig : GitConfiguration) (opt : FilterOptions) (key : String) : String :=
  if opt.Local then gitConfig.FindLocal key
  else if opt.Worktree then gitConfig.FindWorktree key
  else if opt.System then gitConfig.FindSystem key
  else gitConfig.FindGlobal key

/-- The scope-selection chain of `Attribute.set` for writes: Local, then
Worktree, then System, else Global. -/
def selectedSet (gitConfig : GitConfiguration) (opt : FilterOptions) (key value : String) :
    GitConfiguration :=
  if opt.Local then gitConfig.SetLocal key value
  else if opt.Worktree then gitConfig.SetWorktree key value
  else if opt.System then gitConfig.SetSystem key value
  else gitConfig.SetGlobal key value

/-- `Attribute.set` of the lfs package: read the current value in the
selected scope; overwrite when forced or when `shouldReset` allows it;
report a conflict when the current value differs from the desired one;
otherwise leave the configuration untouched. The receiver of the Go
method is unused by its body and is omitted. -/
def Attribute.set (gitConfig : GitConfiguration) (key value : String)
    (upgradeables : List String) (opt : FilterOptions) : Except ConflictError GitConfiguration :=
  let currentValue := selectedFind gitConfig opt key
  if opt.Force || shouldReset currentValue upgradeables then
    Except.ok (selectedSet gitConfig opt key value)
  else if currentValue != value then
    Except.error { key := key, expected := value, actual := currentValue }
  else
    Except.ok gitConfig

/-
Helper lemmas.
-/

theorem lookup_mapInsert_self {β : Type} (tbl : List (String × β)) (k : String) (v : β) :
    (mapInsert tbl k v).lookup k = some v := by
  induction tbl with
  | nil => simp [mapInsert, List.lookup]
  | cons p rest ih =>
      obtain ⟨k2, v2⟩ := p
      by_cases h : k2 = k
      · simp [mapInsert, h, List.lookup]
      · have hb : (k2 == k) = false := by simp [h]
        have hb2 : (k == k2) = false := by simp [Ne.symm h]
        simp [mapInsert, hb, List.lookup, hb2, ih]

theorem lookup_mapInsert_ne {β : Type} (tbl : List (String × β)) (k k3 : String) (v : β)
    (h : k3 ≠ k) : (mapInsert tbl k v).lookup k3 = tbl.lookup k3 := by
  have hb3 : (k3 == k) = false := by simp [h]
  induction tbl with
  | nil => simp [mapInsert, List.lookup, hb3]
  | cons p rest ih =>
      obtain ⟨k2, v2⟩ := p
      by_cases h2 : k2 = k
      · subst h2
        simp [mapInsert, List.lookup, hb3]
      · have hb : (k2 == k) = false := by simp [h2]
        simp [mapInsert, hb, List.lookup, ih]

theorem string_length_zero_iff (s : String) : s.length = 0 ↔ s = "" := by
  constructor
  · intro h
    cases s with
    | mk data =>
        have hd : data = [] := by
          have : data.length = 0 := h
          exact List.length_eq_zero.1 this
        subst hd
        rfl
  · intro h
    subst h
    rfl

theorem initAdapters_fields (m : Manifest) :
    m.InitAdapters.MaxRetries = (if m.MaxRetries < 1 then defaultMaxRetries else m.MaxRetries)
    ∧ m.InitAdapters.ConcurrentTransfers
        = (if m.ConcurrentTransfers < 1 then defaultConcurrentTransfers
           else m.ConcurrentTransfers)
    ∧ m.InitAdapters.BasicTransfersOnly = m.BasicTransfersOnly := by
  simp only [Manifest.InitAdapters, configureBasicDownloadAdapter, configureBasicUploadAdapter,
    configureTusAdapter, Manifest.RegisterNewAdapterFunc]
  refine ⟨?_, ?_, ?_⟩ <;> (repeat' split) <;> rfl

theorem initAdapters_tables (m : Manifest) :
    m.InitAdapters.downloadAdapterFuncs
        = mapInsert m.downloadAdapterFuncs BasicAdapterName basicFactory
    ∧ m.InitAdapters.uploadAdapterFuncs
        = (if m.TusTransfersAllowed then
             mapInsert (mapInsert m.uploadAdapterFuncs BasicAdapterName basicFactory)
               TusAdapterName tusFactory
           else mapInsert m.uploadAdapterFuncs BasicAdapterName basicFactory) := by
  simp only [Manifest.InitAdapters, configureBasicDownloadAdapter, configureBasicUploadAdapter,
    configureTusAdapter, Manifest.RegisterNewAdapterFunc]
  constructor <;> (repeat' split) <;> rfl

theorem initAdapters_lookup_basic (m : Manifest) (dir : Direction)
    (h : dir = Direction.Upload ∨ dir = Direction.Download) :
    (m.InitAdapters.funcsFor dir).lookup BasicAdapterName = some basicFactory := by
  have hne : BasicAdapterName ≠ TusAdapterName := by decide
  rcases h with h | h <;> subst h
  · show m.InitAdapters.uploadAdapterFuncs.lookup BasicAdapterName = some basicFactory
    rw [(initAdapters_tables m).2]
    split
    · rw [lookup_mapInsert_ne _ _ _ _ hne, lookup_mapInsert_self]
    · rw [lookup_mapInsert_self]
  · show m.InitAdapters.downloadAdapterFuncs.lookup BasicAdapterName = some basicFactory
    rw [(initAdapters_tables m).1, lookup_mapInsert_self]

theorem newAdapter_of_lookup (m : Manifest) (name : String) (dir : Direction)
    (f : NewAdapterFunc) (h : dir = Direction.Upload ∨ dir = Direction.Download)
    (hl : (m.funcsFor dir).lookup name = some f) :
    m.NewAdapter name dir = f name dir := by
  rcases h with h | h <;> subst h <;>
    simp only [Manifest.funcsFor] at hl <;>
    simp [Manifest.NewAdapter, hl]

theorem newAdapter_none_of_lookup_none (m : Manifest) (name : String) (dir : Direction)
    (hl : (m.funcsFor dir).lookup name = none) :
    m.NewAdapter name dir = none := by
  cases dir <;> simp only [Manifest.funcsFor] at hl <;> simp [Manifest.NewAdapter, hl]

theorem shouldReset_iff (value : String) (ups : List String) :
    shouldReset value ups = true ↔ (value = "" ∨ ups.contains value = true) := by
  unfold shouldReset
  by_cases h : (value.length == 0) = true
  · rw [if_pos h]
    simp only [true_iff]
    exact Or.inl ((string_length_zero_iff value).1 (beq_iff_eq.1 h))
  · rw [if_neg h]
    constructor
    · exact Or.inr
    · rintro (h2 | h2)
      · exact absurd (beq_iff_eq.2 ((string_length_zero_iff value).2 h2)) h
      · exact h2

theorem selectedFind_selectedSet (gitConfig : GitConfiguration) (opt : FilterOptions)
    (key value : String) :
    selectedFind (selectedSet gitConfig opt key value) opt key = value := by
  unfold selectedFind selectedSet
  split_ifs <;>
    simp [GitConfiguration.FindLocal, GitConfiguration.FindWorktree,
      GitConfiguration.FindSystem, GitConfiguration.FindGlobal,
      GitConfiguration.SetLocal, GitConfiguration.SetWorktree,
      GitConfiguration.SetSystem, GitConfiguration.SetGlobal,
      configFind, lookup_mapInsert_self]

/-
Claim theorems.
-/

/-- C2: after InitAdapters on a Manifest whose MaxRetries field is 0 and
whose ConcurrentTransfers field is 0, MaxRetries equals 1 and
ConcurrentTransfers equals 3, the two documented defaults. -/
theorem initAdapters_defaults (m : Manifest) (h1 : m.MaxRetries = 0)
    (h2 : m.ConcurrentTransfers = 0) :
    m.InitAdapters.MaxRetries = 1 ∧ m.InitAdapters.ConcurrentTransfers = 3 := by
  obtain ⟨ha, hb, _⟩ := initAdapters_fields m
  rw [ha, hb, h1, h2]
  norm_num [defaultMaxRetries, defaultConcurrentTransfers]

theorem initAdapters_defaults_witness :
    ({ NewManifest with MaxRetries := 0, ConcurrentTransfers := 0 } : Manifest).InitAdapters.MaxRetries = 1
    ∧ ({ NewManifest with MaxRetries := 0, ConcurrentTransfers := 0 } : Manifest).InitAdapters.ConcurrentTransfers = 3 :=
  initAdapters_defaults _ rfl rfl

/-- C3 counterexample: the claim says a ConcurrentTransfers value at or
below 0 is clamped to the minimum 1, but InitAdapters resets it to the
default 3: on a Manifest with ConcurrentTransfers equal to 0 the field is
3 after InitAdapters, not 1. -/
theorem initAdapters_clamp_counterexample :
    ({ NewManifest with ConcurrentTransfers := 0 } : Manifest).ConcurrentTransfers ≤ 0
    ∧ ({ NewManifest with ConcurrentTransfers := 0 } : Manifest).InitAdapters.ConcurrentTransfers ≠ 1 := by
  constructor
  · decide
  · have h : ({ NewManifest with ConcurrentTransfers := 0 } : Manifest).InitAdapters.ConcurrentTransfers = 3 := by
      rw [(initAdapters_fields _).2.1]
      norm_num [NewManifest, defaultConcurrentTransfers]
    rw [h]
    decide

/-- C3 amended: InitAdapters resets each field to its own default when
the field is below 1: a MaxRetries at or below 0 becomes 1 (its default)
and a ConcurrentTransfers at or below 0 becomes 3 (its default). -/
theorem initAdapters_reset_to_defaults (m : Manifest) :
    (m.MaxRetries ≤ 0 → m.InitAdapters.MaxRetries = 1)
    ∧ (m.ConcurrentTransfers ≤ 0 → m.InitAdapters.ConcurrentTransfers = 3) := by
  obtain ⟨ha, hb, _⟩ := initAdapters_fields m
  constructor
  · intro h
    rw [ha, if_pos (by omega)]
    rfl
  · intro h
    rw [hb, if_pos (by omega)]
    rfl

theorem initAdapters_reset_to_defaults_witness :
    ({ NewManifest with MaxRetries := -2, ConcurrentTransfers := 0 } : Manifest).InitAdapters.ConcurrentTransfers = 3 :=
  (initAdapters_reset_to_defaults _).2 (by decide)

/-- C9: on a Manifest fresh from NewManifest, for every name and every
direction, NewAdapter and NewAdapterOrDefault return the nil sentinel,
GetAdapterNames returns the empty list, and BasicTransfersOnly is false;
no registry operation signals an error (the model has no error channel,
matching the code). -/
theorem newManifest_registry_total (name : String) (dir : Direction) :
    NewManifest.NewAdapter name dir = none
    ∧ NewManifest.NewAdapterOrDefault name dir = none
    ∧ NewManifest.GetAdapterNames dir = []
    ∧ NewManifest.BasicTransfersOnly = false := by
  refine ⟨?_, ?_, ?_, rfl⟩ <;> cases dir <;> rfl

/-- C10: for every Direction value outside Upload and Download,
RegisterNewAdapterFunc is a silent no-op on the whole Manifest, NewAdapter
returns the nil sentinel even for registered names, and GetAdapterNames
returns nil (the empty list) even when BasicTransfersOnly is true, because
the direction dispatch precedes the basic-only override. -/
theorem unknown_direction_noop (m : Manifest) (name : String) (f : NewAdapterFunc) (k : Nat) :
    m.RegisterNewAdapterFunc name (Direction.other k) f = m
    ∧ m.NewAdapter name (Direction.other k) = none
    ∧ m.GetAdapterNames (Direction.other k) = [] :=
  ⟨rfl, rfl, rfl⟩

/-- C1: after InitAdapters has completed, for every name and every
direction among Upload and Download, NewAdapterOrDefault returns a
non-nil adapter; an empty name is substituted by the basic name before
lookup, and an unregistered name falls back to the basic factory. -/
theorem newAdapterOrDefault_after_init (m0 : Manifest) (name : String) (dir : Direction)
    (h : dir = Direction.Upload ∨ dir = Direction.Download) :
    (m0.InitAdapters.NewAdapterOrDefault name dir).isSome = true
    ∧ (name = "" →
        m0.InitAdapters.NewAdapterOrDefault name dir
          = m0.InitAdapters.NewAdapter BasicAdapterName dir)
    ∧ ((m0.InitAdapters.funcsFor dir).lookup name = none →
        m0.InitAdapters.NewAdapterOrDefault name dir = basicFactory BasicAdapterName dir) := by
  have hbasic : m0.InitAdapters.NewAdapter BasicAdapterName dir
      = basicFactory BasicAdapterName dir :=
    newAdapter_of_lookup _ _ _ _ h (initAdapters_lookup_basic m0 dir h)
  refine ⟨?_, ?_, ?_⟩
  · simp only [Manifest.NewAdapterOrDefault]
    split
    · rfl
    · rw [hbasic]
      rfl
  · intro hname
    subst hname
    simp only [Manifest.NewAdapterOrDefault]
    have hz : (("" : String).length == 0) = true := rfl
    rw [if_pos hz, hbasic]
    rfl
  · intro hl
    have hnone : m0.InitAdapters.NewAdapter name dir = none :=
      newAdapter_none_of_lookup_none _ name dir hl
    simp only [Manifest.NewAdapterOrDefault]
    by_cases hn : (name.length == 0) = true
    · rw [if_pos hn, hbasic]
      rfl
    · rw [if_neg hn, hnone, hbasic]

theorem newAdapterOrDefault_after_init_witness :
    (NewManifest.InitAdapters.NewAdapterOrDefault "nonexistent-xyz" Direction.Download).isSome
      = true :=
  (newAdapterOrDefault_after_init NewManifest "nonexistent-xyz" Direction.Download
    (Or.inr rfl)).1

/-- C4 counterexample: NewAdapter does not return the nil sentinel
exactly when the name is absent; a registered factory that itself
returns the nil adapter makes NewAdapter return nil although its name is
present in the table of the direction. -/
theorem newAdapter_nil_iff_absent_counterexample :
    (({ NewManifest with uploadAdapterFuncs := [("X", fun _ _ => none)] } : Manifest).uploadAdapterFuncs.lookup "X").isSome = true
    ∧ ({ NewManifest with uploadAdapterFuncs := [("X", fun _ _ => none)] } : Manifest).NewAdapter "X" Direction.Upload = none :=
  ⟨rfl, rfl⟩

/-- C4 amended: NewAdapter returns the nil sentinel exactly when the
name is absent from the table of its direction or the registered factory
itself returns nil; for a present name it invokes that factory and
returns its result; the two direction tables are independent, so a name
registered only under Upload yields nil from a Download request while
the Upload request invokes its factory. -/
theorem newAdapter_nil_characterization (m : Manifest) (name : String) :
    (m.NewAdapter name Direction.Upload = none
      ↔ m.uploadAdapterFuncs.lookup name = none
        ∨ ∃ f, m.uploadAdapterFuncs.lookup name = some f ∧ f name Direction.Upload = none)
    ∧ (m.NewAdapter name Direction.Download = none
      ↔ m.downloadAdapterFuncs.lookup name = none
        ∨ ∃ f, m.downloadAdapterFuncs.lookup name = some f ∧ f name Direction.Download = none)
    ∧ (∀ f, m.uploadAdapterFuncs.lookup name = some f →
        m.NewAdapter name Direction.Upload = f name Direction.Upload)
    ∧ (∀ f, m.downloadAdapterFuncs.lookup name = some f →
        m.NewAdapter name Direction.Download = f name Direction.Download)
    ∧ (∀ f, m.downloadAdapterFuncs.lookup name = none →
        (m.RegisterNewAdapterFunc name Direction.Upload f).NewAdapter name Direction.Download
            = none
        ∧ (m.RegisterNewAdapterFunc name Direction.Upload f).NewAdapter name Direction.Upload
            = f name Direction.Upload) := by
  refine ⟨?_, ?_, ?_, ?_, ?_⟩
  · cases hl : m.uploadAdapterFuncs.lookup name with
    | none => simp [Manifest.NewAdapter, hl]
    | some f => simp [Manifest.NewAdapter, hl]
  · cases hl : m.downloadAdapterFuncs.lookup name with
    | none => simp [Manifest.NewAdapter, hl]
    | some f => simp [Manifest.NewAdapter, hl]
  · intro f hl
    simp [Manifest.NewAdapter, hl]
  · intro f hl
    simp [Manifest.NewAdapter, hl]
  · intro f hl
    constructor
    · simp [Manifest.RegisterNewAdapterFunc, Manifest.NewAdapter, hl]
    · simp [Manifest.RegisterNewAdapterFunc, Manifest.NewAdapter, lookup_mapInsert_self]

theorem newAdapter_nil_characterization_witness :
    NewManifest.NewAdapter "X" Direction.Upload = none :=
  (newAdapter_nil_characterization NewManifest "X").1.mpr (Or.inl rfl)

/-- C5: with BasicTransfersOnly set, the two listing operations return
exactly the one-element list holding the basic name, whatever is
registered; with it unset they return exactly the keys of the table of
their direction. -/
theorem getAdapterNames_basic_override (m : Manifest) :
    (m.BasicTransfersOnly = true →
      m.GetDownloadAdapterNames = [BasicAdapterName]
      ∧ m.GetUploadAdapterNames = [BasicAdapterName])
    ∧ (m.BasicTransfersOnly = false →
      (∀ s, s ∈ m.GetDownloadAdapterNames ↔ s ∈ m.downloadAdapterFuncs.map Prod.fst)
      ∧ (∀ s, s ∈ m.GetUploadAdapterNames ↔ s ∈ m.uploadAdapterFuncs.map Prod.fst)) := by
  constructor
  · intro h
    constructor <;>
      simp [Manifest.GetDownloadAdapterNames, Manifest.GetUploadAdapterNames,
        Manifest.getAdapterNames, h]
  · intro h
    constructor <;> intro s <;>
      simp [Manifest.GetDownloadAdapterNames, Manifest.GetUploadAdapterNames,
        Manifest.getAdapterNames, h]

theorem getAdapterNames_basic_override_witness :
    ({ NewManifest with BasicTransfersOnly := true, downloadAdapterFuncs := [("a", basicFactory), ("b", basicFactory), ("c", basicFactory)] } : Manifest).GetDownloadAdapterNames = [BasicAdapterName] :=
  ((getAdapterNames_basic_override _).1 rfl).1

/-- C6: RegisterNewAdapterFunc writes the factory into the table picked
by the direction under the given name (overwriting any prior binding),
leaves the other table unchanged, and a subsequent NewAdapter for that
name and direction invokes the new factory. -/
theorem registerNewAdapterFunc_effect (m : Manifest) (name : String) (f : NewAdapterFunc) :
    ((m.RegisterNewAdapterFunc name Direction.Upload f).uploadAdapterFuncs
        = mapInsert m.uploadAdapterFuncs name f
      ∧ (m.RegisterNewAdapterFunc name Direction.Upload f).downloadAdapterFuncs
        = m.downloadAdapterFuncs
      ∧ (m.RegisterNewAdapterFunc name Direction.Upload f).uploadAdapterFuncs.lookup name
        = some f
      ∧ (m.RegisterNewAdapterFunc name Direction.Upload f).NewAdapter name Direction.Upload
        = f name Direction.Upload)
    ∧ ((m.RegisterNewAdapterFunc name Direction.Download f).downloadAdapterFuncs
        = mapInsert m.downloadAdapterFuncs name f
      ∧ (m.RegisterNewAdapterFunc name Direction.Download f).uploadAdapterFuncs
        = m.uploadAdapterFuncs
      ∧ (m.RegisterNewAdapterFunc name Direction.Download f).downloadAdapterFuncs.lookup name
        = some f
      ∧ (m.RegisterNewAdapterFunc name Direction.Download f).NewAdapter name Direction.Download
        = f name Direction.Download) := by
  refine ⟨⟨rfl, rfl, lookup_mapInsert_self _ _ _, ?_⟩,
    ⟨rfl, rfl, lookup_mapInsert_self _ _ _, ?_⟩⟩ <;>
    simp [Manifest.RegisterNewAdapterFunc, Manifest.NewAdapter, lookup_mapInsert_self]

/-- C7 counterexample: the guard is not released before the factory is
invoked. The deferred unlock of Go runs only after the return expression
has been evaluated, so on a post-initialization Manifest the lookup hit
for the basic name produces a factory invocation while the guard is
held, refuting the claim that no factory invocation ever occurs while
the guard is held. -/
theorem newAdapter_unlock_before_invoke_counterexample :
    ¬ ∀ (m : Manifest) (name : String) (dir : Direction),
        invokeWhileHeld 0 (m.newAdapterEvents name dir) = false := by
  intro hall
  have h := hall NewManifest.InitAdapters BasicAdapterName Direction.Upload
  have h2 : invokeWhileHeld 0
      (NewManifest.InitAdapters.newAdapterEvents BasicAdapterName Direction.Upload) = true := rfl
  rw [h2] at h
  exact Bool.noConfusion h

/-- C7 amended: in NewAdapter the deferred unlock runs only after the
return expression (the factory call) has been evaluated: no factory
invocation ever occurs while the guard is free, the release is the last
event of the operation, and whenever the lookup hits, a factory
invocation takes place while the guard is held. -/
theorem newAdapter_factory_invoked_while_held (m : Manifest) (name : String) (dir : Direction) :
    invokeWhileFree 0 (m.newAdapterEvents name dir) = false
    ∧ (m.newAdapterEvents name dir).getLast? = some LockEvent.release
    ∧ (((m.funcsFor dir).lookup name).isSome = true →
        invokeWhileHeld 0 (m.newAdapterEvents name dir) = true) := by
  cases dir with
  | Upload =>
      cases hl : m.uploadAdapterFuncs.lookup name <;>
        simp [Manifest.newAdapterEvents, Manifest.funcsFor, hl, invokeWhileFree,
          invokeWhileHeld]
  | Download =>
      cases hl : m.downloadAdapterFuncs.lookup name <;>
        simp [Manifest.newAdapterEvents, Manifest.funcsFor, hl, invokeWhileFree,
          invokeWhileHeld]
  | other k =>
      simp [Manifest.newAdapterEvents, Manifest.funcsFor, invokeWhileFree, invokeWhileHeld,
        List.lookup]

theorem newAdapter_factory_invoked_while_held_witness :
    invokeWhileHeld 0
        (NewManifest.InitAdapters.newAdapterEvents BasicAdapterName Direction.Upload) = true :=
  (newAdapter_factory_invoked_while_held NewManifest.InitAdapters BasicAdapterName
    Direction.Upload).2.2 (by rw [initAdapters_lookup_basic NewManifest Direction.Upload (Or.inl rfl)]; rfl)

/-- C8: Attribute.set returns the conflict error, carrying the key, the
desired value and the current value, exactly when force is off, the
current value in the selected scope is non-empty, differs from the
desired value, and matches no upgradeable legacy value; in every other
case it succeeds, and after a write caused by force, emptiness or an
upgradeable current value the selected scope maps the key to the desired
value, while a current value already equal to the desired one keeps the
key at that value. -/
theorem attribute_set_conflict_iff (gitConfig : GitConfiguration) (key value : String)
    (upgradeables : List String) (opt : FilterOptions) :
    ((∃ e, Attribute.set gitConfig key value upgradeables opt = Except.error e)
      ↔ (opt.Force = false ∧ selectedFind gitConfig opt key ≠ ""
          ∧ selectedFind gitConfig opt key ≠ value
          ∧ upgradeables.contains (selectedFind gitConfig opt key) = false))
    ∧ (∀ e, Attribute.set gitConfig key value upgradeables opt = Except.error e →
        e = { key := key, expected := value, actual := selectedFind gitConfig opt key })
    ∧ ((opt.Force = true ∨ selectedFind gitConfig opt key = ""
          ∨ upgradeables.contains (selectedFind gitConfig opt key) = true) →
        Attribute.set gitConfig key value upgradeables opt
          = Except.ok (selectedSet gitConfig opt key value))
    ∧ (selectedFind gitConfig opt key = value →
        ∃ c, Attribute.set gitConfig key value upgradeables opt = Except.ok c
          ∧ selectedFind c opt key = value)
    ∧ selectedFind (selectedSet gitConfig opt key value) opt key = value := by
  have hset := selectedFind_selectedSet gitConfig opt key value
  by_cases hg : (opt.Force || shouldReset (selectedFind gitConfig opt key) upgradeables) = true
  · have hres : Attribute.set gitConfig key value upgradeables opt
        = Except.ok (selectedSet gitConfig opt key value) := by
      simp only [Attribute.set]
      rw [if_pos hg]
    refine ⟨?_, ?_, ?_, ?_, hset⟩
    · constructor
      · rintro ⟨e, he⟩
        rw [hres] at he
        exact Except.noConfusion he
      · rintro ⟨h1, h2, h3, h4⟩
        rw [h1, Bool.false_or] at hg
        rcases (shouldReset_iff _ _).1 hg with h5 | h5
        · exact (h2 h5).elim
        · rw [h5] at h4
          exact Bool.noConfusion h4
    · intro e he
      rw [hres] at he
      exact Except.noConfusion he
    · intro _
      exact hres
    · intro hcv
      exact ⟨selectedSet gitConfig opt key value, hres, hset⟩
  · have hg2 : (opt.Force || shouldReset (selectedFind gitConfig opt key) upgradeables)
        = false := Bool.not_eq_true _ ▸ (Bool.eq_false_iff.2 hg)
    have hforce : opt.Force = false := by
      rcases Bool.or_eq_false_iff.1 hg2 with ⟨h1, _⟩
      exact h1
    have hsr : shouldReset (selectedFind gitConfig opt key) upgradeables = false := by
      rcases Bool.or_eq_false_iff.1 hg2 with ⟨_, h2⟩
      exact h2
    have hnr : ¬(selectedFind gitConfig opt key = ""
        ∨ upgradeables.contains (selectedFind gitConfig opt key) = true) := by
      rw [← shouldReset_iff]
      rw [hsr]
      exact Bool.noConfusion
    have hne : selectedFind gitConfig opt key ≠ "" := fun h => hnr (Or.inl h)
    have hnc : upgradeables.contains (selectedFind gitConfig opt key) = false :=
      Bool.eq_false_iff.2 fun h => hnr (Or.inr h)
    by_cases hv : selectedFind gitConfig opt key = value
    · have hres : Attribute.set gitConfig key value upgradeables opt = Except.ok gitConfig := by
        simp only [Attribute.set]
        rw [if_neg hg, if_neg (by rw [bne_iff_ne]; exact fun h => h hv)]
      refine ⟨?_, ?_, ?_, ?_, hset⟩
      · constructor
        · rintro ⟨e, he⟩
          rw [hres] at he
          exact Except.noConfusion he
        · rintro ⟨_, _, h3, _⟩
          exact absurd hv h3
      · intro e he
        rw [hres] at he
        exact Except.noConfusion he
      · rintro (h1 | h1 | h1)
        · exact absurd h1 (by rw [hforce]; exact Bool.noConfusion)
        · exact absurd h1 hne
        · rw [hnc] at h1
          exact Bool.noConfusion h1
      · intro hcv
        exact ⟨gitConfig, hres, hcv⟩
    · have hres : Attribute.set gitConfig key value upgradeables opt
          = Except.error
              { key := key, expected := value, actual := selectedFind gitConfig opt key } := by
        simp only [Attribute.set]
        rw [if_neg hg, if_pos (bne_iff_ne.2 hv)]
      refine ⟨?_, ?_, ?_, ?_, hset⟩
      · constructor
        · intro _
          exact ⟨hforce, hne, hv, hnc⟩
        · intro _
          exact ⟨_, hres⟩
      · intro e he
        rw [hres] at he
        have := Except.error.inj he
        exact this.symm
      · rintro (h1 | h1 | h1)
        · exact absurd h1 (by rw [hforce]; exact Bool.noConfusion)
        · exact absurd h1 hne
        · rw [hnc] at h1
          exact Bool.noConfusion h1
      · intro hcv
        exact absurd hcv hv

theorem attribute_set_conflict_iff_witness :
    ∃ e, Attribute.set
        { localConfig := [], worktreeConfig := [], systemConfig := [],
          globalConfig := [("filter.lfs.clean", "old")] }
        "filter.lfs.clean" "new" []
        { Force := false, Local := false, Worktree := false, System := false,
          SkipSmudge := false }
      = Except.error e :=
  (attribute_set_conflict_iff _ _ _ _ _).1.mpr (by refine ⟨rfl, ?_, ?_, rfl⟩ <;> decide)

end GitLfs
